import Mathlib

/-!
# Verification of the viesvattool rate-limited retry/backoff job scheduler

Shallow embedding of the durable (SQLite-backed) variant of `src/server.js`
(the variant the specification declares canonical), plus `memberStateAvailable`
from the first in-memory variant.  Machine times are modelled as `Nat`
milliseconds; JSON payload round-trips (`JSON.stringify`/`JSON.parse` of
successful upstream answers) are modelled by carrying the structured payload
value itself; network and timer effects are passed in explicitly as oracle
inputs.
-/

namespace ViesVatTool

/-! ## Configuration constants (src/server.js, durable variant) -/

def CACHE_TTL_MS : Nat := 24 * 60 * 60 * 1000

def NON_FR_MIN_GAP_GLOBAL_MS : Nat := 650

def NON_FR_MIN_GAP_PER_COUNTRY_MS : Nat := 1600

def NON_FR_COUNTRY_OVERRIDES : List (String × Nat) := [("DE", 2600), ("RO", 2600)]

def FR_MIN_GAP_MS : Nat := 2500

def FR_MS_MAX_BACKOFF_S : List Nat := [10, 20, 40, 60, 90, 120, 180, 240, 300]

def FR_OTHER_BACKOFF_S : List Nat := [5, 10, 20, 30, 60, 90, 120]

def FR_GLOBAL_MS_MAX_COOLDOWN_MS : Nat := 8000

def STATUS_CACHE_MS : Nat := 60 * 1000

def RETRYABLE_CODES : List String :=
  ["MS_MAX_CONCURRENT_REQ", "GLOBAL_MAX_CONCURRENT_REQ", "MS_UNAVAILABLE",
   "SERVICE_UNAVAILABLE", "TIMEOUT", "TECHNICAL_ERROR", "IO_ERROR"]

/-- `isRetryable(code, httpStatus)` from the durable variant. -/
def isRetryable (code : String) (httpStatus : Nat) : Bool :=
  RETRYABLE_CODES.contains code || httpStatus == 408 || httpStatus == 429 ||
    decide (500 ≤ httpStatus)

/-! ## Upstream payload

A successful `check-vat-number` answer.  The code stores it in the cache and in
`result_json` as a JSON string; we model the serialized form by the value. -/

structure ViesData where
  valid : Bool
  name : String
  address : String
deriving DecidableEq, Repr

/-! ## Result cache (`vat_cache` table, `getCached` / `setCached`) -/

structure CacheRow where
  vat_key : String
  response : ViesData
  checked_at : Nat
deriving DecidableEq, Repr

/-- `getCached(vatKey)`: absent if missing or older than the TTL. -/
def getCached (cache : List CacheRow) (vatKey : String) (now : Nat) : Option ViesData :=
  match cache.find? (fun r => r.vat_key == vatKey) with
  | none => none
  | some r => if CACHE_TTL_MS < now - r.checked_at then none else some r.response

/-- `setCached(vatKey, data)`: keyed upsert with `checked_at = now`. -/
def setCached (cache : List CacheRow) (vatKey : String) (data : ViesData) (now : Nat) :
    List CacheRow :=
  CacheRow.mk vatKey data now :: cache.filter (fun r => !(r.vat_key == vatKey))

/-! ## Key normalizer (`normalizeVatLine`, `normalizeCountryCode`, `parseVat`) -/

/-- Trim, strip whitespace and non-alphanumerics, uppercase.  The leading
`.trim()` of the source is subsumed here by the whitespace strip that the
source performs right after it. -/
def normalizeVatLine (s : String) : String :=
  String.mk
    (((s.toList.filter (fun c => !c.isWhitespace)).filter
        (fun c => c.isAlphanum)).map Char.toUpper)

def normalizeCountryCode (cc : String) : String :=
  let c := String.mk (cc.toList.map Char.toUpper)
  if c == "GR" then "EL" else c

inductive ParseResult where
  | failed (error : String)
  | ok (countryCode : String) (vatNumber : String) (vatKey : String)
deriving DecidableEq, Repr

/-- `parseVat(norm)` from the durable variant (input already normalized). -/
def parseVat (norm : String) : ParseResult :=
  if norm.length < 3 then ParseResult.failed "EMPTY_OR_TOO_SHORT"
  else
    let cc := normalizeCountryCode (norm.take 2)
    if !(cc.length == 2 && cc.toList.all (fun c => decide ('A' ≤ c) && decide (c ≤ 'Z'))) then
      ParseResult.failed "MISSING_OR_INVALID_COUNTRY_PREFIX"
    else
      let vatPart := norm.drop 2
      if vatPart.isEmpty then ParseResult.failed "MISSING_VAT_NUMBER"
      else ParseResult.ok cc vatPart (cc ++ vatPart)

/-! ## Batch intake (`/api/validate-batch`, lines 1363-1398): normalize, parse,
surface malformed lines, dedupe by key. -/

structure BatchErrorRow where
  input : String
  state : String
  error : String
deriving DecidableEq, Repr

structure ParsedItem where
  input : String
  countryCode : String
  vatNumber : String
  vatKey : String
deriving DecidableEq, Repr

/-- The intake loop of `/api/validate-batch`: returns the immediate error rows
and the deduplicated parsed items that are handed to the two lanes. -/
def processBatchAux : List String → List String → List BatchErrorRow × List ParsedItem
  | _, [] => ([], [])
  | seen, raw :: rest =>
    let norm := normalizeVatLine raw
    if norm.isEmpty then processBatchAux seen rest
    else
      match parseVat norm with
      | ParseResult.failed e =>
        let r := processBatchAux seen rest
        ({ input := raw, state := "error", error := e } :: r.1, r.2)
      | ParseResult.ok cc vn key =>
        if seen.contains key then processBatchAux seen rest
        else
          let r := processBatchAux (key :: seen) rest
          (r.1, { input := raw, countryCode := cc, vatNumber := vn, vatKey := key } :: r.2)

/-! ## Fast-lane rate limiter (`reserveNonFrStartAt`, `nonFrCountryGap`) -/

def nonFrCountryGap (country : String) : Nat :=
  match NON_FR_COUNTRY_OVERRIDES.find? (fun p => p.1 == country) with
  | some p => p.2
  | none => NON_FR_MIN_GAP_PER_COUNTRY_MS

/-- The two reservation watermarks (`nonFrNextGlobalAt`, `nonFrNextByCountryAt`);
an absent per-country watermark counts as 0. -/
structure NonFrClock where
  nextGlobalAt : Nat
  nextByCountryAt : List (String × Nat)
deriving DecidableEq, Repr

def lookupCountry (m : List (String × Nat)) (c : String) : Nat :=
  ((m.find? (fun p => p.1 == c)).map (fun p => p.2)).getD 0

/-- Body of the `reserveNonFrStartAt` critical section. -/
def reserveNonFrStartAt (st : NonFrClock) (country : String) (now : Nat) :
    Nat × NonFrClock :=
  let nextCountry := lookupCountry st.nextByCountryAt country
  let startAt := max now (max st.nextGlobalAt nextCountry)
  (startAt,
    { nextGlobalAt := startAt + NON_FR_MIN_GAP_GLOBAL_MS,
      nextByCountryAt :=
        (country, startAt + nonFrCountryGap country) ::
          st.nextByCountryAt.filter (fun p => !(p.1 == country)) })

/-! ## Slow-lane backoff ladder (`computeFrDelayMs`) -/

def computeFrDelayMs (code : String) (attempts : Nat) : Nat :=
  let a := max 1 attempts
  if code == "MS_MAX_CONCURRENT_REQ" || code == "GLOBAL_MAX_CONCURRENT_REQ" then
    (FR_MS_MAX_BACKOFF_S.getD (min (FR_MS_MAX_BACKOFF_S.length - 1) (a - 1)) 0) * 1000
  else
    (FR_OTHER_BACKOFF_S.getD (min (FR_OTHER_BACKOFF_S.length - 1) (a - 1)) 0) * 1000

/-- Spec-side helper: the congestion class and the ladder the spec assigns to a
code, used to state the claim about `computeFrDelayMs`. -/
def frCongestionCode (code : String) : Bool :=
  code == "MS_MAX_CONCURRENT_REQ" || code == "GLOBAL_MAX_CONCURRENT_REQ"

def frLadderFor (code : String) : List Nat :=
  if frCongestionCode code then [10, 20, 40, 60, 90, 120, 180, 240, 300]
  else [5, 10, 20, 30, 60, 90, 120]

/-! ## Durable job store (`fr_jobs` / `fr_job_items` tables) -/

structure FrJob where
  job_id : String
  created_at : Nat
  updated_at : Nat
  status : String
  total : Nat
  done : Nat
  message : Option String
deriving DecidableEq, Repr

structure FrItem where
  job_id : String
  position : Nat
  input : String
  vat_key : String
  country_code : String
  vat_number : String
  state : String
  attempts : Nat
  next_retry_at : Option Nat
  last_code : Option String
  last_message : Option String
  result_json : Option ViesData
  updated_at : Nat
deriving DecidableEq, Repr

structure FrStore where
  jobs : List FrJob
  items : List FrItem
deriving DecidableEq, Repr

def isTerminalState (st : String) : Bool := st == "done" || st == "error"

def isOpenState (st : String) : Bool :=
  st == "queued" || st == "processing" || st == "retry"

def itemsOf (s : FrStore) (jobId : String) : List FrItem :=
  s.items.filter (fun it => it.job_id == jobId)

/-- `SELECT COUNT(*) ... WHERE job_id=? AND state IN ('done','error')` -/
def frDoneCount (s : FrStore) (jobId : String) : Nat :=
  (itemsOf s jobId).countP (fun it => isTerminalState it.state)

/-- `SELECT COUNT(*) ... WHERE job_id=? AND state IN ('queued','processing','retry')` -/
def frOpenCount (s : FrStore) (jobId : String) : Nat :=
  (itemsOf s jobId).countP (fun it => isOpenState it.state)

/-- `frRecalcJob(jobId)`: recompute the job aggregate from its items. -/
def frRecalcJob (s : FrStore) (jobId : String) (now : Nat) : FrStore :=
  let total := ((s.jobs.find? (fun j => j.job_id == jobId)).map (fun j => j.total)).getD 0
  let done := frDoneCount s jobId
  let openCount := frOpenCount s jobId
  let status := if openCount == 0 then "completed" else "running"
  { s with
    jobs := s.jobs.map (fun j =>
      if j.job_id == jobId then
        { j with done := done, total := total, status := status, updated_at := now }
      else j) }

structure FrItemPatch where
  state : String
  attempts : Nat
  next_retry_at : Option Nat
  last_code : Option String
  last_message : Option String
  result_json : Option ViesData
deriving DecidableEq, Repr

def applyPatch (it : FrItem) (patch : FrItemPatch) (now : Nat) : FrItem :=
  { it with
    state := patch.state, attempts := patch.attempts,
    next_retry_at := patch.next_retry_at, last_code := patch.last_code,
    last_message := patch.last_message, result_json := patch.result_json,
    updated_at := now }

/-- `frUpdateItem(jobId, vatKey, patch)`: single-row update followed by
`frRecalcJob(jobId)`. -/
def frUpdateItem (s : FrStore) (jobId : String) (vatKey : String)
    (patch : FrItemPatch) (now : Nat) : FrStore :=
  let s1 : FrStore :=
    { s with
      items := s.items.map (fun it =>
        if it.job_id == jobId && it.vat_key == vatKey then applyPatch it patch now
        else it) }
  frRecalcJob s1 jobId now

/-! ## Due-item selection (`frPickNextDueItem`)

`WHERE (state='queued' OR state='retry') AND (next_retry_at IS NULL OR
next_retry_at <= now) ORDER BY COALESCE(next_retry_at,0) ASC, updated_at ASC,
position ASC LIMIT 1`. -/

def frEligible (now : Nat) (it : FrItem) : Bool :=
  (it.state == "queued" || it.state == "retry") &&
    (match it.next_retry_at with
     | none => true
     | some t => Nat.ble t now)

/-- The `ORDER BY` key: `(COALESCE(next_retry_at,0), updated_at, position)`. -/
def frOrderKey (it : FrItem) : Nat × Nat × Nat :=
  (it.next_retry_at.getD 0, it.updated_at, it.position)

/-- Strict lexicographic comparison of order keys. -/
def frKeyLT (a b : Nat × Nat × Nat) : Bool :=
  if a.1 < b.1 then true
  else if b.1 < a.1 then false
  else if a.2.1 < b.2.1 then true
  else if b.2.1 < a.2.1 then false
  else if a.2.2 < b.2.2 then true
  else false

def frPickStep (acc : Option FrItem) (it : FrItem) : Option FrItem :=
  match acc with
  | none => some it
  | some b => if frKeyLT (frOrderKey it) (frOrderKey b) then some it else some b

def frPickNextDueItem (s : FrStore) (now : Nat) : Option FrItem :=
  (s.items.filter (frEligible now)).foldl frPickStep none

/-- The open-work count of `resumeFrWorkerIfNeeded`:
`WHERE state IN ('queued','retry','processing')` over all items. -/
def resumeOpenCount (s : FrStore) : Nat :=
  s.items.countP (fun it =>
    it.state == "queued" || it.state == "retry" || it.state == "processing")

/-! ## Upstream status gate -/

/-- One entry of the `check-status` snapshot (first variant:
`statusJson.countries`). -/
structure StatusCountry where
  countryCode : String
  availability : String
deriving DecidableEq, Repr

structure StatusJson where
  countries : List StatusCountry
deriving DecidableEq, Repr

/-- `memberStateAvailable(statusJson, countryCode)` (first variant, lines
52-56): fail-open when there is no entry. -/
def memberStateAvailable (statusJson : Option StatusJson) (countryCode : String) : Bool :=
  let cc := if countryCode == "GR" then "EL" else countryCode
  let entry := ((statusJson.map (fun s => s.countries)).getD []).find?
    (fun c => c.countryCode == cc)
  match entry with
  | none => true
  | some e => e.availability == "Available"

/-- Durable-variant snapshot shape: `json.vow`. -/
structure VowCountry where
  countryCode : String
  availability : String
deriving DecidableEq, Repr

structure Vow where
  available : Option Bool
  countries : Option (List VowCountry)
deriving DecidableEq, Repr

structure VowSnapshot where
  vow : Vow
deriving DecidableEq, Repr

/-- `statusCache = { fetchedAt, data }` for `getViesStatusCached`. -/
structure StatusCacheState where
  fetchedAt : Nat
  data : Option VowSnapshot
deriving DecidableEq, Repr

/-- `getViesStatusCached()`: serve a fresh cached snapshot; otherwise consult
the fetch result (`none` models a failed fetch or a body without `vow`) and
fall back to the last good snapshot on failure. -/
def getViesStatusCached (st : StatusCacheState) (now : Nat)
    (fetched : Option VowSnapshot) : StatusCacheState × Option VowSnapshot :=
  if st.data.isSome && decide (now - st.fetchedAt < STATUS_CACHE_MS) then (st, st.data)
  else
    match fetched with
    | some j => ({ fetchedAt := now, data := some j }, some j)
    | none => (st, st.data)

/-- The FR gate condition inside `runFrWorker` (lines 1177-1195): block when
`vow.available === false` or the FR row reports a non-empty availability other
than "Available". -/
def frGateBlocks (status : Option VowSnapshot) : Bool :=
  let vowAvailable : Option Bool := status.bind (fun s => s.vow.available)
  let frRow : Option VowCountry :=
    match status.bind (fun s => s.vow.countries) with
    | some cs => cs.find? (fun c => c.countryCode.toUpper == "FR")
    | none => none
  (vowAvailable == some false) ||
    (match frRow with
     | some r => !(r.availability == "") && !(r.availability == "Available")
     | none => false)

/-! ## Slow-lane worker (`runFrWorker`)

One iteration of the drain loop, with the effects passed in explicitly: the
status snapshot returned by `getViesStatusCached`, the upstream call result,
and the two jitter draws.  The clock advances only at the explicit waiting
points (global cool-down sleep and `enforceFrGap`); instantaneous work is
modelled as taking no time, which is the worst case for the lower bounds
proved below. -/

inductive ViesResult where
  | ok (data : ViesData)
  | err (code : String) (httpStatus : Nat) (message : String)
deriving DecidableEq, Repr

structure FrStepInput where
  status : Option VowSnapshot
  callResult : ViesResult
  statusJitter : Nat
  failJitter : Nat
deriving DecidableEq, Repr

structure FrWorkerState where
  clock : Nat
  pauseUntil : Nat
  nextCallAt : Nat
  store : FrStore
  cache : List CacheRow
deriving DecidableEq, Repr

structure FrStepOut where
  st : FrWorkerState
  dispatchedAt : Option Nat
  looped : Bool
deriving DecidableEq, Repr

/-- Mark the picked item `processing` (`next_due_at` cleared). -/
def frProcessingPatch (item : FrItem) : FrItemPatch :=
  { state := "processing", attempts := item.attempts, next_retry_at := none,
    last_code := item.last_code, last_message := item.last_message,
    result_json := none }

def frWorkerStep (st : FrWorkerState) (inp : FrStepInput) : FrStepOut :=
  let now1 := max st.clock st.pauseUntil
  match frPickNextDueItem st.store now1 with
  | none => { st := { st with clock := now1 }, dispatchedAt := none, looped := false }
  | some item =>
    let s1 := frUpdateItem st.store item.job_id item.vat_key (frProcessingPatch item) now1
    match getCached st.cache item.vat_key now1 with
    | some data =>
      { st :=
          { st with
            clock := now1,
            store := frUpdateItem s1 item.job_id item.vat_key
              { state := "done", attempts := item.attempts, next_retry_at := none,
                last_code := none, last_message := none, result_json := some data }
              now1 },
        dispatchedAt := none, looped := true }
    | none =>
      if frGateBlocks inp.status then
        { st :=
            { st with
              clock := now1,
              store := frUpdateItem s1 item.job_id item.vat_key
                { state := "retry", attempts := item.attempts + 1,
                  next_retry_at := some (now1 + 60 * 1000 + inp.statusJitter),
                  last_code := some "MS_STATUS_UNAVAILABLE",
                  last_message := some "check-status unavailable",
                  result_json := none } now1 },
          dispatchedAt := none, looped := true }
      else
        let dispatchAt := max st.nextCallAt now1
        let nca := dispatchAt + FR_MIN_GAP_MS
        match inp.callResult with
        | ViesResult.ok data =>
          { st :=
              { clock := dispatchAt, pauseUntil := st.pauseUntil, nextCallAt := nca,
                store := frUpdateItem s1 item.job_id item.vat_key
                  { state := "done", attempts := item.attempts, next_retry_at := none,
                    last_code := none, last_message := none, result_json := some data }
                  dispatchAt,
                cache := setCached st.cache item.vat_key data dispatchAt },
            dispatchedAt := some dispatchAt, looped := true }
        | ViesResult.err code hs msg =>
          if isRetryable code hs then
            let attempts := item.attempts + 1
            let delayMs := computeFrDelayMs code attempts
            let next := dispatchAt + (delayMs + inp.failJitter)
            let pause2 :=
              if code == "MS_MAX_CONCURRENT_REQ" || code == "GLOBAL_MAX_CONCURRENT_REQ" then
                max st.pauseUntil (dispatchAt + FR_GLOBAL_MS_MAX_COOLDOWN_MS)
              else st.pauseUntil
            { st :=
                { clock := dispatchAt, pauseUntil := pause2, nextCallAt := nca,
                  store := frUpdateItem s1 item.job_id item.vat_key
                    { state := "retry", attempts := attempts, next_retry_at := some next,
                      last_code := some code, last_message := some msg,
                      result_json := none } dispatchAt,
                  cache := st.cache },
              dispatchedAt := some dispatchAt, looped := true }
          else
            { st :=
                { clock := dispatchAt, pauseUntil := st.pauseUntil, nextCallAt := nca,
                  store := frUpdateItem s1 item.job_id item.vat_key
                    { state := "error", attempts := item.attempts + 1,
                      next_retry_at := none, last_code := some code,
                      last_message := some msg, result_json := none } dispatchAt,
                  cache := st.cache },
              dispatchedAt := some dispatchAt, looped := true }

def defaultFrStepInput : FrStepInput :=
  { status := none, callResult := ViesResult.err "TIMEOUT" 0 "", statusJitter := 0,
    failJitter := 0 }

/-- Fuelled drain loop: run up to `fuel` iterations of `runFrWorker`'s body,
consuming one oracle input per iteration, and collect the dispatch times of the
upstream calls actually issued. -/
def frRun : Nat → FrWorkerState → List FrStepInput → FrWorkerState × List Nat
  | 0, st, _ => (st, [])
  | Nat.succ fuel, st, inps =>
    let out := frWorkerStep st (inps.headD defaultFrStepInput)
    if out.looped then
      let rest := frRun fuel out.st inps.tail
      (rest.1, out.dispatchedAt.toList ++ rest.2)
    else (out.st, out.dispatchedAt.toList)

/-- Spec-side helper: the entry the status snapshot holds for a jurisdiction
(after the legacy GR→EL alias normalization of the data model). -/
def statusFindEntry (statusJson : Option StatusJson) (countryCode : String) :
    Option StatusCountry :=
  ((statusJson.map (fun s => s.countries)).getD []).find?
    (fun c => c.countryCode == (if countryCode == "GR" then "EL" else countryCode))

/-! ## Concrete sample data used by witnesses and counterexamples -/

def exData : ViesData := { valid := true, name := "ACME", address := "1 Rue" }

/-- Counterexample item for the selection order: larger position, smaller
last-update time, no deadline. -/
def exA2 : FrItem :=
  { job_id := "j1", position := 5, input := "FR5", vat_key := "FR5",
    country_code := "FR", vat_number := "5", state := "queued", attempts := 0,
    next_retry_at := none, last_code := none, last_message := none,
    result_json := none, updated_at := 100 }

/-- Counterexample item for the selection order: smaller position, later
last-update time, no deadline. -/
def exB2 : FrItem :=
  { job_id := "j1", position := 2, input := "FR2", vat_key := "FR2",
    country_code := "FR", vat_number := "2", state := "queued", attempts := 0,
    next_retry_at := none, last_code := none, last_message := none,
    result_json := none, updated_at := 200 }

def exStore2 : FrStore := { jobs := [], items := [exA2, exB2] }

def exJob1 : FrJob :=
  { job_id := "j1", created_at := 0, updated_at := 0, status := "running",
    total := 1, done := 0, message := none }

def exItem1 : FrItem :=
  { job_id := "j1", position := 0, input := "FR1", vat_key := "FR1",
    country_code := "FR", vat_number := "1", state := "queued", attempts := 0,
    next_retry_at := some 0, last_code := none, last_message := none,
    result_json := none, updated_at := 0 }

def exStore1 : FrStore := { jobs := [exJob1], items := [exItem1] }

def exPatchDone : FrItemPatch :=
  { state := "done", attempts := 0, next_retry_at := none, last_code := none,
    last_message := none, result_json := some exData }

/-- The job row produced by applying `exPatchDone` to `exStore1`'s only item
at time 5 and recomputing the aggregate. -/
def exJob1Done : FrJob :=
  { job_id := "j1", created_at := 0, updated_at := 5, status := "completed",
    total := 1, done := 1, message := none }

/-- A slow-lane item whose retry budget would be exhausted under the spec:
50 attempts already spent, due now. -/
def exItem3 : FrItem :=
  { job_id := "j1", position := 0, input := "FR1", vat_key := "FR1",
    country_code := "FR", vat_number := "1", state := "retry", attempts := 50,
    next_retry_at := some 0, last_code := none, last_message := none,
    result_json := none, updated_at := 0 }

def exSt3 : FrWorkerState :=
  { clock := 0, pauseUntil := 0, nextCallAt := 0,
    store := { jobs := [exJob1], items := [exItem3] }, cache := [] }

def exInp3 : FrStepInput :=
  { status := none, callResult := ViesResult.err "MS_MAX_CONCURRENT_REQ" 200 "busy",
    statusJitter := 0, failJitter := 0 }

/-- An item left in state `processing` by a crash. -/
def exItem4 : FrItem :=
  { job_id := "j1", position := 0, input := "FR1", vat_key := "FR1",
    country_code := "FR", vat_number := "1", state := "processing", attempts := 1,
    next_retry_at := none, last_code := none, last_message := none,
    result_json := none, updated_at := 0 }

def exStore4 : FrStore := { jobs := [exJob1], items := [exItem4] }

def exSt4 : FrWorkerState :=
  { clock := 0, pauseUntil := 0, nextCallAt := 0, store := exStore4, cache := [] }

def exSt6 : FrWorkerState :=
  { clock := 0, pauseUntil := 0, nextCallAt := 0,
    store := { jobs := [exJob1], items := [exItem1] }, cache := [] }

def exInp6 : FrStepInput :=
  { status := none, callResult := ViesResult.err "MS_MAX_CONCURRENT_REQ" 200 "busy",
    statusJitter := 0, failJitter := 0 }

/-! ## C8: cache round-trip within / after the TTL -/

/-- C8: for every key `k` and payload `v`, a `get(k)` after `put(k, v)` returns
`v` while the age is within the TTL, and returns absent once the TTL has
elapsed (age strictly greater than the TTL). -/
theorem cache_roundtrip_ttl (cache : List CacheRow) (k : String) (v : ViesData)
    (t now : Nat) :
    (now - t ≤ CACHE_TTL_MS → getCached (setCached cache k v t) k now = some v)
      ∧ (CACHE_TTL_MS < now - t → getCached (setCached cache k v t) k now = none) := by
  have hfind : (setCached cache k v t).find? (fun r => r.vat_key == k)
      = some (CacheRow.mk k v t) := by
    simp [setCached]
  constructor
  · intro h
    unfold getCached
    rw [hfind]
    show (if CACHE_TTL_MS < now - t then none else some v) = some v
    exact if_neg (by omega)
  · intro h
    unfold getCached
    rw [hfind]
    show (if CACHE_TTL_MS < now - t then none else some v) = none
    exact if_pos h

theorem cache_roundtrip_ttl_witness :
    getCached (setCached [] "FR123" exData 0) "FR123" 1000 = some exData
      ∧ getCached (setCached [] "FR123" exData 0) "FR123" (CACHE_TTL_MS + 1) = none :=
  ⟨(cache_roundtrip_ttl [] "FR123" exData 0 1000).1 (by decide),
   (cache_roundtrip_ttl [] "FR123" exData 0 (CACHE_TTL_MS + 1)).2 (by decide)⟩

/-! ## C10: slow-lane backoff ladder -/

/-- C10: for every code and attempt count `n ≥ 1`, `computeFrDelayMs` returns
the ladder entry at index `min n (length) - 1` (in seconds, scaled to ms),
with the congestion ladder for `MS_MAX_CONCURRENT_REQ` /
`GLOBAL_MAX_CONCURRENT_REQ` and the other ladder otherwise; the delay is
strictly increasing while `n` is within the ladder and constant at the last
rung beyond it. -/
theorem computeFrDelayMs_spec (code : String) (n : Nat) (h : 1 ≤ n) :
    computeFrDelayMs code n
        = ((frLadderFor code).getD (min n (frLadderFor code).length - 1) 0) * 1000
      ∧ (n + 1 ≤ (frLadderFor code).length →
          computeFrDelayMs code n < computeFrDelayMs code (n + 1))
      ∧ ((frLadderFor code).length ≤ n →
          computeFrDelayMs code n = computeFrDelayMs code (frLadderFor code).length) := by
  by_cases hc : (code == "MS_MAX_CONCURRENT_REQ" || code == "GLOBAL_MAX_CONCURRENT_REQ") = true
  · have l1 : frLadderFor code = FR_MS_MAX_BACKOFF_S := by
      simp only [frLadderFor, frCongestionCode]
      rw [if_pos hc]
      rfl
    have l2 : ∀ m, computeFrDelayMs code m
        = (FR_MS_MAX_BACKOFF_S.getD (min 8 (max 1 m - 1)) 0) * 1000 := by
      intro m
      simp only [computeFrDelayMs]
      rw [if_pos hc]
      rfl
    have hlen : FR_MS_MAX_BACKOFF_S.length = 9 := rfl
    refine ⟨?_, ?_, ?_⟩
    · rw [l2 n, l1, hlen]
      have e : min 8 (max 1 n - 1) = min n 9 - 1 := by omega
      rw [e]
    · intro h2
      rw [l1, hlen] at h2
      rw [l2 n, l2 (n + 1)]
      have hn : n ≤ 8 := by omega
      interval_cases n <;> decide
    · intro h3
      rw [l1, hlen] at h3
      rw [l1, hlen, l2 n, l2 9]
      have e : min 8 (max 1 n - 1) = min 8 (max 1 9 - 1) := by omega
      rw [e]
  · have l1 : frLadderFor code = FR_OTHER_BACKOFF_S := by
      simp only [frLadderFor, frCongestionCode]
      rw [if_neg hc]
      rfl
    have l2 : ∀ m, computeFrDelayMs code m
        = (FR_OTHER_BACKOFF_S.getD (min 6 (max 1 m - 1)) 0) * 1000 := by
      intro m
      simp only [computeFrDelayMs]
      rw [if_neg hc]
      rfl
    have hlen : FR_OTHER_BACKOFF_S.length = 7 := rfl
    refine ⟨?_, ?_, ?_⟩
    · rw [l2 n, l1, hlen]
      have e : min 6 (max 1 n - 1) = min n 7 - 1 := by omega
      rw [e]
    · intro h2
      rw [l1, hlen] at h2
      rw [l2 n, l2 (n + 1)]
      have hn : n ≤ 6 := by omega
      interval_cases n <;> decide
    · intro h3
      rw [l1, hlen] at h3
      rw [l1, hlen, l2 n, l2 7]
      have e : min 6 (max 1 n - 1) = min 6 (max 1 7 - 1) := by omega
      rw [e]

theorem computeFrDelayMs_spec_witness :
    computeFrDelayMs "MS_MAX_CONCURRENT_REQ" 3
        = ((frLadderFor "MS_MAX_CONCURRENT_REQ").getD
            (min 3 (frLadderFor "MS_MAX_CONCURRENT_REQ").length - 1) 0) * 1000
      ∧ computeFrDelayMs "SERVICE_UNAVAILABLE" 2 < computeFrDelayMs "SERVICE_UNAVAILABLE" 3 :=
  ⟨(computeFrDelayMs_spec "MS_MAX_CONCURRENT_REQ" 3 (by decide)).1,
   (computeFrDelayMs_spec "SERVICE_UNAVAILABLE" 2 (by decide)).2.1 (by decide)⟩

/-! ## C5: fast-lane reservation allocator -/

lemma find?_filter_ne (l : List (String × Nat)) (c country : String) (h : c ≠ country) :
    (l.filter (fun p => !(p.1 == country))).find? (fun p => p.1 == c)
      = l.find? (fun p => p.1 == c) := by
  induction l with
  | nil => rfl
  | cons a l ih =>
    rw [List.filter_cons]
    by_cases ha : a.1 = country
    · have hb : (a.1 == country) = true := by simp [ha]
      have hcc : (a.1 == c) = false := by
        simp only [beq_eq_false_iff_ne, ne_eq, ha]
        exact fun e => h e.symm
      simp [hb, List.find?_cons, hcc, ih]
    · have hb : (a.1 == country) = false := by simp [ha]
      by_cases hcc : a.1 = c
      · have : (a.1 == c) = true := by simp [hcc]
        simp [hb, List.find?_cons, this]
      · have : (a.1 == c) = false := by simp [hcc]
        simp [hb, List.find?_cons, this, ih]

/-- C5: the reservation allocator returns
`start = max(now, next_global_at, next_partition_at[c])` (an absent partition
watermark counting as 0), then advances the global watermark by the global gap
and the partition watermark by the per-partition gap, which is the configured
override (2600 ms for DE and RO) when one exists and the default otherwise;
other partitions' watermarks are untouched. -/
theorem reserveNonFrStartAt_spec (st : NonFrClock) (country : String) (now : Nat) :
    (reserveNonFrStartAt st country now).1
        = max now (max st.nextGlobalAt (lookupCountry st.nextByCountryAt country))
      ∧ (reserveNonFrStartAt st country now).2.nextGlobalAt
          = (reserveNonFrStartAt st country now).1 + NON_FR_MIN_GAP_GLOBAL_MS
      ∧ lookupCountry (reserveNonFrStartAt st country now).2.nextByCountryAt country
          = (reserveNonFrStartAt st country now).1 + nonFrCountryGap country
      ∧ ((country = "DE" ∨ country = "RO") → nonFrCountryGap country = 2600)
      ∧ (country ≠ "DE" → country ≠ "RO" →
          nonFrCountryGap country = NON_FR_MIN_GAP_PER_COUNTRY_MS)
      ∧ (∀ c2, c2 ≠ country →
          lookupCountry (reserveNonFrStartAt st country now).2.nextByCountryAt c2
            = lookupCountry st.nextByCountryAt c2) := by
  refine ⟨rfl, rfl, ?_, ?_, ?_, ?_⟩
  · simp [reserveNonFrStartAt, lookupCountry, List.find?_cons]
  · rintro (rfl | rfl) <;> rfl
  · intro h1 h2
    have e1 : (("DE" : String) == country) = false := by
      simp only [beq_eq_false_iff_ne, ne_eq]
      exact fun e => h1 e.symm
    have e2 : (("RO" : String) == country) = false := by
      simp only [beq_eq_false_iff_ne, ne_eq]
      exact fun e => h2 e.symm
    simp [nonFrCountryGap, NON_FR_COUNTRY_OVERRIDES, List.find?_cons, e1, e2]
  · intro c2 hne
    have e1 : (country == c2) = false := by
      simp only [beq_eq_false_iff_ne, ne_eq]
      exact fun e => hne e.symm
    simp only [reserveNonFrStartAt, lookupCountry, List.find?_cons, e1]
    rw [find?_filter_ne _ _ _ hne]

theorem reserveNonFrStartAt_spec_witness :
    (reserveNonFrStartAt (NonFrClock.mk 500 [("DE", 2000)]) "DE" 1000).1
        = max 1000 (max 500 (lookupCountry [("DE", 2000)] "DE"))
      ∧ nonFrCountryGap "DE" = 2600 := by
  have h := reserveNonFrStartAt_spec (NonFrClock.mk 500 [("DE", 2000)]) "DE" 1000
  exact ⟨h.1, h.2.2.2.1 (Or.inl rfl)⟩

/-! ## C7: upstream status gate -/

/-- C7: the gate answers "is jurisdiction X available?" with `true` exactly
when the snapshot has no entry for X (fail-open) or the entry's availability is
exactly "Available"; and a failed snapshot refresh returns the last good
snapshot instead of failing the caller. -/
theorem statusGate_spec :
    (∀ (sj : Option StatusJson) (cc : String),
        memberStateAvailable sj cc = true ↔
          (statusFindEntry sj cc = none ∨
            ∃ e, statusFindEntry sj cc = some e ∧ e.availability = "Available"))
      ∧ (∀ (st : StatusCacheState) (now : Nat),
          (getViesStatusCached st now none).2 = st.data) := by
  constructor
  · intro sj cc
    simp only [memberStateAvailable, statusFindEntry]
    cases h : ((sj.map (fun s => s.countries)).getD []).find?
        (fun c => c.countryCode == (if cc == "GR" then "EL" else cc)) with
    | none => simp [h]
    | some e => simp [h]
  · intro st now
    unfold getViesStatusCached
    split
    · rfl
    · rfl

/-! ## C9: malformed input handling -/

/-- C9 counterexample: the raw line "!!" is malformed (its normalization is
empty, which the normalizer classifies as EMPTY_OR_TOO_SHORT), yet the batch
intake produces no row at all for it — it is silently dropped rather than
surfaced as a terminal error row, refuting the claim as stated. -/
theorem batch_empty_norm_dropped_cex :
    parseVat (normalizeVatLine "!!") = ParseResult.failed "EMPTY_OR_TOO_SHORT"
      ∧ processBatchAux [] ["!!"] = ([], []) := by
  constructor
  · decide
  · decide

/-- C9 (amended): the normalizer returns a key or exactly one of the three
failure reasons; a malformed line whose normalization is non-empty is surfaced
as a terminal error row; and no parsed item handed to the lanes ever comes
from a malformed line (so a malformed line never yields a queued or processing
Item). -/
theorem batch_malformed_handling :
    (∀ s : String,
        (∃ cc vn k, parseVat s = ParseResult.ok cc vn k) ∨
          (∃ e, parseVat s = ParseResult.failed e ∧
            (e = "EMPTY_OR_TOO_SHORT" ∨ e = "MISSING_OR_INVALID_COUNTRY_PREFIX" ∨
              e = "MISSING_VAT_NUMBER")))
      ∧ (∀ (lines seen : List String) (raw e : String),
          raw ∈ lines → ¬normalizeVatLine raw = "" →
          parseVat (normalizeVatLine raw) = ParseResult.failed e →
          ∃ row ∈ (processBatchAux seen lines).1,
            row.input = raw ∧ row.state = "error" ∧ row.error = e)
      ∧ (∀ (lines seen : List String) (it : ParsedItem),
          it ∈ (processBatchAux seen lines).2 →
          ∃ cc vn, parseVat (normalizeVatLine it.input) = ParseResult.ok cc vn it.vatKey) := by
  refine ⟨?_, ?_, ?_⟩
  · intro s
    simp only [parseVat]
    split
    · exact Or.inr ⟨_, rfl, Or.inl rfl⟩
    · split
      · exact Or.inr ⟨_, rfl, Or.inr (Or.inl rfl)⟩
      · split
        · exact Or.inr ⟨_, rfl, Or.inr (Or.inr rfl)⟩
        · exact Or.inl ⟨_, _, _, rfl⟩
  · intro lines
    induction lines with
    | nil =>
      intro seen raw e hmem
      exact absurd hmem (List.not_mem_nil raw)
    | cons a rest ih =>
      intro seen raw e hmem hne hfail
      rcases List.mem_cons.mp hmem with rfl | hmem2
      · have hcond : ¬((normalizeVatLine raw).isEmpty = true) := by
          rw [String.isEmpty_iff]
          exact hne
        have hstep : (processBatchAux seen (raw :: rest)).1
            = { input := raw, state := "error", error := e }
                :: (processBatchAux seen rest).1 := by
          simp only [processBatchAux]
          rw [if_neg hcond, hfail]
        rw [hstep]
        exact ⟨_, List.mem_cons_self _ _, rfl, rfl, rfl⟩
      · by_cases ha : (normalizeVatLine a).isEmpty = true
        · have hstep : processBatchAux seen (a :: rest) = processBatchAux seen rest := by
            simp only [processBatchAux]
            rw [if_pos ha]
          rw [hstep]
          exact ih seen raw e hmem2 hne hfail
        · cases hpa : parseVat (normalizeVatLine a) with
          | failed ea =>
            have hstep : (processBatchAux seen (a :: rest)).1
                = { input := a, state := "error", error := ea }
                    :: (processBatchAux seen rest).1 := by
              simp only [processBatchAux]
              rw [if_neg ha, hpa]
            rw [hstep]
            obtain ⟨row, hrow, hps⟩ := ih seen raw e hmem2 hne hfail
            exact ⟨row, List.mem_cons_of_mem _ hrow, hps⟩
          | ok cc vn key =>
            by_cases hk : key ∈ seen
            · have hstep : processBatchAux seen (a :: rest) = processBatchAux seen rest := by
                simp only [processBatchAux]
                rw [if_neg ha, hpa]
                simp [hk]
              rw [hstep]
              exact ih seen raw e hmem2 hne hfail
            · have hstep : (processBatchAux seen (a :: rest)).1
                  = (processBatchAux (key :: seen) rest).1 := by
                simp only [processBatchAux]
                rw [if_neg ha, hpa]
                simp [hk]
              rw [hstep]
              exact ih (key :: seen) raw e hmem2 hne hfail
  · intro lines
    induction lines with
    | nil =>
      intro seen it hmem
      exact absurd hmem (List.not_mem_nil it)
    | cons a rest ih =>
      intro seen it hmem
      by_cases ha : (normalizeVatLine a).isEmpty = true
      · have hstep : processBatchAux seen (a :: rest) = processBatchAux seen rest := by
          simp only [processBatchAux]
          rw [if_pos ha]
        rw [hstep] at hmem
        exact ih seen it hmem
      · cases hpa : parseVat (normalizeVatLine a) with
        | failed ea =>
          have hstep : (processBatchAux seen (a :: rest)).2 = (processBatchAux seen rest).2 := by
            simp only [processBatchAux]
            rw [if_neg ha, hpa]
          rw [hstep] at hmem
          exact ih seen it hmem
        | ok cc vn key =>
          by_cases hk : key ∈ seen
          · have hstep : processBatchAux seen (a :: rest) = processBatchAux seen rest := by
              simp only [processBatchAux]
              rw [if_neg ha, hpa]
              simp [hk]
            rw [hstep] at hmem
            exact ih seen it hmem
          · have hstep : (processBatchAux seen (a :: rest)).2
                = ({ input := a, countryCode := cc, vatNumber := vn, vatKey := key }
                    : ParsedItem) :: (processBatchAux (key :: seen) rest).2 := by
              simp only [processBatchAux]
              rw [if_neg ha, hpa]
              simp [hk]
            rw [hstep] at hmem
            rcases List.mem_cons.mp hmem with rfl | h2
            · exact ⟨cc, vn, hpa⟩
            · exact ih (key :: seen) it h2

theorem batch_malformed_handling_witness :
    ∃ row ∈ (processBatchAux [] ["XX", "FR123"]).1,
      row.input = "XX" ∧ row.state = "error" ∧ row.error = "EMPTY_OR_TOO_SHORT" :=
  batch_malformed_handling.2.1 ["XX", "FR123"] [] "XX" "EMPTY_OR_TOO_SHORT"
    (by decide) (by decide) (by decide)

/-! ## C2: due-item selection order -/

lemma frKeyLT_char (a b : Nat × Nat × Nat) :
    frKeyLT a b = true ↔
      (a.1 < b.1 ∨ (a.1 = b.1 ∧ (a.2.1 < b.2.1 ∨ (a.2.1 = b.2.1 ∧ a.2.2 < b.2.2)))) := by
  unfold frKeyLT
  split_ifs <;> simp_all <;> omega

lemma frKeyLT_eq_false_iff (a b : Nat × Nat × Nat) :
    frKeyLT a b = false ↔
      ¬(a.1 < b.1 ∨ (a.1 = b.1 ∧ (a.2.1 < b.2.1 ∨ (a.2.1 = b.2.1 ∧ a.2.2 < b.2.2)))) := by
  rw [← frKeyLT_char, Bool.not_eq_true]

lemma frKeyLT_false_trans (a b c : Nat × Nat × Nat)
    (h1 : frKeyLT a b = false) (h2 : frKeyLT b c = false) : frKeyLT a c = false := by
  rw [frKeyLT_eq_false_iff] at h1 h2 ⊢
  omega

lemma frKeyLT_false_of_lt (a b c : Nat × Nat × Nat)
    (h1 : frKeyLT a b = true) (h2 : frKeyLT a c = false) : frKeyLT b c = false := by
  rw [frKeyLT_char] at h1
  rw [frKeyLT_eq_false_iff] at h2 ⊢
  omega

lemma frKeyLT_irrefl (a : Nat × Nat × Nat) : frKeyLT a a = false := by
  rw [frKeyLT_eq_false_iff]
  omega

/-- The fold underlying the `LIMIT 1` selection returns a member that is
minimal for the order key. -/
lemma frPickFold_spec (l : List FrItem) :
    ∀ (acc : Option FrItem) (r : FrItem), l.foldl frPickStep acc = some r →
      ((acc = some r ∨ r ∈ l)
        ∧ (∀ a, acc = some a → frKeyLT (frOrderKey a) (frOrderKey r) = false)
        ∧ (∀ b ∈ l, frKeyLT (frOrderKey b) (frOrderKey r) = false)) := by
  induction l with
  | nil =>
    intro acc r h
    simp only [List.foldl_nil] at h
    refine ⟨Or.inl h, ?_, ?_⟩
    · intro a ha
      rw [h] at ha
      cases ha
      exact frKeyLT_irrefl _
    · intro b hb
      exact absurd hb (List.not_mem_nil b)
  | cons x l ih =>
    intro acc r h
    rw [List.foldl_cons] at h
    obtain ⟨hmem, hacc, hall⟩ := ih (frPickStep acc x) r h
    cases acc with
    | none =>
      have hx : frKeyLT (frOrderKey x) (frOrderKey r) = false := hacc x rfl
      refine ⟨?_, ?_, ?_⟩
      · rcases hmem with h1 | h2
        · have : x = r := by
            have := h1
            simp only [frPickStep] at this
            exact Option.some.inj this
          exact Or.inr (this ▸ List.mem_cons_self x l)
        · exact Or.inr (List.mem_cons_of_mem x h2)
      · intro a ha
        cases ha
      · intro b hb
        rcases List.mem_cons.mp hb with rfl | hb2
        · exact hx
        · exact hall b hb2
    | some b0 =>
      by_cases hcmp : frKeyLT (frOrderKey x) (frOrderKey b0) = true
      · have hstep : frPickStep (some b0) x = some x := by
          simp [frPickStep, hcmp]
        rw [hstep] at hmem hacc
        have hx : frKeyLT (frOrderKey x) (frOrderKey r) = false := hacc x rfl
        refine ⟨?_, ?_, ?_⟩
        · rcases hmem with h1 | h2
          · have : x = r := Option.some.inj h1
            exact Or.inr (this ▸ List.mem_cons_self x l)
          · exact Or.inr (List.mem_cons_of_mem x h2)
        · intro a ha
          cases ha
          exact frKeyLT_false_of_lt _ _ _ hcmp hx
        · intro b hb
          rcases List.mem_cons.mp hb with rfl | hb2
          · exact hx
          · exact hall b hb2
      · have hcmp2 : frKeyLT (frOrderKey x) (frOrderKey b0) = false := by
          cases hc : frKeyLT (frOrderKey x) (frOrderKey b0)
          · rfl
          · exact absurd hc hcmp
        have hstep : frPickStep (some b0) x = some b0 := by
          simp [frPickStep, hcmp2]
        rw [hstep] at hmem hacc
        have hb0 : frKeyLT (frOrderKey b0) (frOrderKey r) = false := hacc b0 rfl
        refine ⟨?_, ?_, ?_⟩
        · rcases hmem with h1 | h2
          · exact Or.inl h1
          · exact Or.inr (List.mem_cons_of_mem x h2)
        · intro a ha
          cases ha
          exact hb0
        · intro b hb
          rcases List.mem_cons.mp hb with rfl | hb2
          · exact frKeyLT_false_trans _ _ _ hcmp2 hb0
          · exact hall b hb2

lemma foldl_frPickStep_some (l : List FrItem) :
    ∀ a : FrItem, ∃ r, l.foldl frPickStep (some a) = some r := by
  induction l with
  | nil => exact fun a => ⟨a, rfl⟩
  | cons x l ih =>
    intro a
    rw [List.foldl_cons]
    cases hc : frKeyLT (frOrderKey x) (frOrderKey a)
    · have : frPickStep (some a) x = some a := by simp [frPickStep, hc]
      rw [this]
      exact ih a
    · have : frPickStep (some a) x = some x := by simp [frPickStep, hc]
      rw [this]
      exact ih x

/-- C2 (amended): `frPickNextDueItem` considers exactly the items in state
`queued` or `retry` whose `next_retry_at` is null or ≤ now, and among these
returns one minimizing the SQL order key `(COALESCE(next_retry_at, 0),
updated_at, position)` — null deadlines are coalesced to time 0 and ties are
broken first by `updated_at`, then by `position`; it returns nothing exactly
when no item is eligible. -/
theorem frPickNextDueItem_spec (s : FrStore) (now : Nat) :
    (∀ it, frPickNextDueItem s now = some it →
        it ∈ s.items ∧ frEligible now it = true ∧
          ∀ b ∈ s.items, frEligible now b = true →
            frKeyLT (frOrderKey b) (frOrderKey it) = false)
      ∧ (frPickNextDueItem s now = none ↔ ∀ b ∈ s.items, frEligible now b = false) := by
  constructor
  · intro it hpick
    unfold frPickNextDueItem at hpick
    obtain ⟨hmem, hacc, hall⟩ := frPickFold_spec _ none it hpick
    have hm : it ∈ s.items.filter (frEligible now) := by
      rcases hmem with h1 | h2
      · cases h1
      · exact h2
    have hmem2 := List.mem_filter.mp hm
    refine ⟨hmem2.1, hmem2.2, ?_⟩
    intro b hb he
    exact hall b (List.mem_filter.mpr ⟨hb, he⟩)
  · constructor
    · intro hnone b hb
      cases he : frEligible now b
      · rfl
      · exfalso
        have hbf : b ∈ s.items.filter (frEligible now) := List.mem_filter.mpr ⟨hb, he⟩
        obtain ⟨x, t, hl⟩ := List.exists_cons_of_ne_nil (List.ne_nil_of_mem hbf)
        unfold frPickNextDueItem at hnone
        rw [hl, List.foldl_cons] at hnone
        have hx : frPickStep none x = some x := rfl
        rw [hx] at hnone
        obtain ⟨r, hr⟩ := foldl_frPickStep_some t x
        rw [hr] at hnone
        cases hnone
    · intro hall
      unfold frPickNextDueItem
      have hnil : s.items.filter (frEligible now) = [] := by
        rw [List.filter_eq_nil_iff]
        intro a ha
        rw [hall a ha]
        simp
      rw [hnil]
      rfl

/-- C2 counterexample: two eligible items with equal (null) deadlines; the
claim predicts the smaller position (exB2) wins the tie, but the selection
returns exA2, whose last-update time is smaller — `updated_at` is compared
before `position`. -/
theorem frPick_updatedat_before_position_cex :
    frPickNextDueItem exStore2 1000 = some exA2
      ∧ exB2 ∈ exStore2.items
      ∧ frEligible 1000 exB2 = true
      ∧ exB2.position < exA2.position
      ∧ exA2.next_retry_at = exB2.next_retry_at := by
  refine ⟨?_, ?_, ?_, ?_, ?_⟩ <;> decide

theorem frPickNextDueItem_spec_witness :
    frKeyLT (frOrderKey exB2) (frOrderKey exA2) = false := by
  have h := (frPickNextDueItem_spec exStore2 1000).1 exA2 (by decide)
  exact h.2.2 exB2 (by decide) (by decide)

/-! ## C1: derived job status -/

lemma terminal_open_disjoint (st : String) :
    ¬(isTerminalState st = true ∧ isOpenState st = true) := by
  rintro ⟨h1, h2⟩
  simp only [isTerminalState, Bool.or_eq_true, beq_iff_eq] at h1
  simp only [isOpenState, Bool.or_eq_true, beq_iff_eq] at h2
  rcases h1 with h1 | h1 <;> rw [h1] at h2 <;>
    rcases h2 with (h2 | h2) | h2 <;> exact absurd h2 (by decide)

lemma countP_cover (l : List FrItem) (p q : FrItem → Bool)
    (hd : ∀ x, ¬(p x = true ∧ q x = true))
    (hc : ∀ x ∈ l, p x = true ∨ q x = true) :
    l.countP p + l.countP q = l.length := by
  induction l with
  | nil => simp
  | cons a l ih =>
    have hih := ih (fun x hx => hc x (List.mem_cons_of_mem a hx))
    rcases hc a (List.mem_cons_self a l) with h | h
    · have hq : ¬(q a = true) := fun hq2 => hd a ⟨h, hq2⟩
      rw [List.countP_cons_of_pos p l h, List.countP_cons_of_neg q l hq, List.length_cons]
      omega
    · have hp : ¬(p a = true) := fun hp2 => hd a ⟨hp2, h⟩
      rw [List.countP_cons_of_neg p l hp, List.countP_cons_of_pos q l h, List.length_cons]
      omega

lemma filter_map_length (l : List FrItem) (f : FrItem → FrItem) (p : FrItem → Bool)
    (h : ∀ it, p (f it) = p it) :
    ((l.map f).filter p).length = (l.filter p).length := by
  induction l with
  | nil => rfl
  | cons a l ih =>
    rw [List.map_cons, List.filter_cons, List.filter_cons, h a]
    cases hp : p a
    · simp only [if_false, Bool.false_eq_true]
      simpa using ih
    · simp only [if_true]
      simpa using ih

lemma upd_job_id (it : FrItem) (jobId vatKey : String) (patch : FrItemPatch) (now : Nat) :
    (if it.job_id == jobId && it.vat_key == vatKey then applyPatch it patch now
      else it).job_id = it.job_id := by
  split
  · rfl
  · rfl

/-- After `frRecalcJob`, a job's status is `completed` exactly when its done
count matches its total and it has no non-terminal item; otherwise `running`.
The item count of the job is assumed to agree with the stored `total` (the
invariant `createFrJob` establishes), and item states are assumed well-formed. -/
lemma frRecalcJob_spec (s : FrStore) (jobId : String) (now : Nat)
    (hcount : ∀ jb ∈ s.jobs, jb.job_id = jobId → (itemsOf s jobId).length = jb.total)
    (hstates : ∀ it ∈ itemsOf s jobId,
      isTerminalState it.state = true ∨ isOpenState it.state = true) :
    ∀ j ∈ (frRecalcJob s jobId now).jobs, j.job_id = jobId →
      ((j.status = "completed" ↔ (j.done = j.total ∧ frOpenCount s jobId = 0))
        ∧ (j.status = "completed" ∨ j.status = "running")) := by
  intro j hj hjid
  simp only [frRecalcJob] at hj
  obtain ⟨jb, hjb, hfj⟩ := List.mem_map.mp hj
  by_cases hb : (jb.job_id == jobId) = true
  · rw [if_pos hb] at hfj
    subst hfj
    dsimp only
    have hDT : frOpenCount s jobId = 0 →
        frDoneCount s jobId
          = ((s.jobs.find? (fun j2 => j2.job_id == jobId)).map (fun j2 => j2.total)).getD 0 := by
      intro hopen
      cases hfind : s.jobs.find? (fun j2 => j2.job_id == jobId) with
      | none =>
        exact absurd hb (List.find?_eq_none.mp hfind jb hjb)
      | some jb0 =>
        have hj0mem := List.mem_of_find?_eq_some hfind
        have hj0id : jb0.job_id = jobId := by
          have h2 := List.find?_some hfind
          simpa using h2
        have hlen := hcount jb0 hj0mem hj0id
        have hco := countP_cover (itemsOf s jobId)
          (fun it => isTerminalState it.state) (fun it => isOpenState it.state)
          (fun x => terminal_open_disjoint x.state) hstates
        show frDoneCount s jobId = jb0.total
        unfold frDoneCount frOpenCount at *
        omega
    by_cases ho : frOpenCount s jobId = 0
    · have hcond : (frOpenCount s jobId == 0) = true := by simp [ho]
      rw [if_pos hcond]
      refine ⟨?_, Or.inl rfl⟩
      constructor
      · intro _
        exact ⟨hDT ho, ho⟩
      · intro _
        rfl
    · have hcond : ¬((frOpenCount s jobId == 0) = true) := by simp [ho]
      rw [if_neg hcond]
      refine ⟨?_, Or.inr rfl⟩
      constructor
      · intro hr
        exact absurd hr (by decide)
      · rintro ⟨-, h0⟩
        exact absurd h0 ho
  · rw [if_neg hb] at hfj
    subst hfj
    exact absurd (beq_iff_eq.mpr hjid) hb

/-- C1: after any item transition performed through `frUpdateItem` (which
recomputes the aggregate via `frRecalcJob`), the job's status is `completed`
iff `done == total` and no item of the job is non-terminal; otherwise the
status is `running` (⊆ running/queued).  Hypotheses: the job's item count
agrees with its stored `total`, and item states are drawn from the state
machine's five states. -/
theorem frUpdateItem_completed_iff (s : FrStore) (jobId vatKey : String)
    (patch : FrItemPatch) (now : Nat)
    (hcount : ∀ jb ∈ s.jobs, jb.job_id = jobId → (itemsOf s jobId).length = jb.total)
    (hstates : ∀ it ∈ s.items, isTerminalState it.state = true ∨ isOpenState it.state = true)
    (hpatch : isTerminalState patch.state = true ∨ isOpenState patch.state = true) :
    ∀ j ∈ (frUpdateItem s jobId vatKey patch now).jobs, j.job_id = jobId →
      ((j.status = "completed" ↔
          (j.done = j.total ∧ frOpenCount (frUpdateItem s jobId vatKey patch now) jobId = 0))
        ∧ (j.status = "completed" ∨ j.status = "running")) := by
  intro j hj hjid
  have hs1count : ∀ jb ∈ ({ s with items := s.items.map (fun it =>
          if it.job_id == jobId && it.vat_key == vatKey then applyPatch it patch now
          else it) } : FrStore).jobs, jb.job_id = jobId →
      (itemsOf { s with items := s.items.map (fun it =>
          if it.job_id == jobId && it.vat_key == vatKey then applyPatch it patch now
          else it) } jobId).length = jb.total := by
    intro jb hjb hid
    have hlen : (itemsOf { s with items := s.items.map (fun it =>
        if it.job_id == jobId && it.vat_key == vatKey then applyPatch it patch now
        else it) } jobId).length = (itemsOf s jobId).length := by
      unfold itemsOf
      exact filter_map_length s.items _ _
        (fun it => by rw [upd_job_id it jobId vatKey patch now])
    rw [hlen]
    exact hcount jb hjb hid
  have hs1states : ∀ it ∈ itemsOf { s with items := s.items.map (fun it =>
        if it.job_id == jobId && it.vat_key == vatKey then applyPatch it patch now
        else it) } jobId,
      isTerminalState it.state = true ∨ isOpenState it.state = true := by
    intro it hit
    have hm : it ∈ s.items.map (fun it =>
        if it.job_id == jobId && it.vat_key == vatKey then applyPatch it patch now
        else it) := (List.mem_filter.mp hit).1
    obtain ⟨it0, hit0, heq⟩ := List.mem_map.mp hm
    by_cases hcnd : (it0.job_id == jobId && it0.vat_key == vatKey) = true
    · rw [if_pos hcnd] at heq
      rw [← heq]
      exact hpatch
    · rw [if_neg hcnd] at heq
      rw [← heq]
      exact hstates it0 hit0
  exact frRecalcJob_spec _ jobId now hs1count hs1states j hj hjid

theorem frUpdateItem_completed_iff_witness :
    (exJob1Done.status = "completed" ↔
        (exJob1Done.done = exJob1Done.total
          ∧ frOpenCount (frUpdateItem exStore1 "j1" "FR1" exPatchDone 5) "j1" = 0))
      ∧ (exJob1Done.status = "completed" ∨ exJob1Done.status = "running") :=
  frUpdateItem_completed_iff exStore1 "j1" "FR1" exPatchDone 5
    (by decide) (by decide) (by decide) exJob1Done (by decide) (by decide)

/-! ## Slow-lane worker properties (C3, C4, C6) -/

/-- An upstream dispatch, when one happens in a worker iteration, is issued at
`max(nextCallAt, max(clock, pauseUntil))` — after the cool-down sleep and the
`enforceFrGap` wait. -/
lemma frWorkerStep_dispatched_cases (st : FrWorkerState) (inp : FrStepInput) :
    (frWorkerStep st inp).dispatchedAt = none ∨
      (frWorkerStep st inp).dispatchedAt
        = some (max st.nextCallAt (max st.clock st.pauseUntil)) := by
  cases hpick : frPickNextDueItem st.store (max st.clock st.pauseUntil) with
  | none =>
    left
    simp [frWorkerStep, hpick]
  | some item =>
    cases hcache : getCached st.cache item.vat_key (max st.clock st.pauseUntil) with
    | some data =>
      left
      simp [frWorkerStep, hpick, hcache]
    | none =>
      by_cases hgate : frGateBlocks inp.status = true
      · left
        simp [frWorkerStep, hpick, hcache, hgate]
      · cases hcall : inp.callResult with
        | ok data =>
          right
          simp [frWorkerStep, hpick, hcache, hgate, hcall]
        | err code hs msg =>
          by_cases hret : isRetryable code hs = true
          · right
            simp [frWorkerStep, hpick, hcache, hgate, hcall, hret]
          · right
            simp [frWorkerStep, hpick, hcache, hgate, hcall, hret]

lemma frWorkerStep_dispatch_ge_pause (st : FrWorkerState) (inp : FrStepInput) (t : Nat)
    (h : (frWorkerStep st inp).dispatchedAt = some t) : st.pauseUntil ≤ t := by
  rcases frWorkerStep_dispatched_cases st inp with hc | hc
  · rw [hc] at h
    cases h
  · rw [hc] at h
    have := Option.some.inj h
    omega

/-- The global cool-down deadline never decreases across a worker iteration. -/
lemma frWorkerStep_pause_mono (st : FrWorkerState) (inp : FrStepInput) :
    st.pauseUntil ≤ (frWorkerStep st inp).st.pauseUntil := by
  cases hpick : frPickNextDueItem st.store (max st.clock st.pauseUntil) with
  | none =>
    simp [frWorkerStep, hpick]
  | some item =>
    cases hcache : getCached st.cache item.vat_key (max st.clock st.pauseUntil) with
    | some data =>
      simp [frWorkerStep, hpick, hcache]
    | none =>
      by_cases hgate : frGateBlocks inp.status = true
      · simp [frWorkerStep, hpick, hcache, hgate]
      · cases hcall : inp.callResult with
        | ok data =>
          simp [frWorkerStep, hpick, hcache, hgate, hcall]
        | err code hs msg =>
          by_cases hret : isRetryable code hs = true
          · by_cases hcong : (code == "MS_MAX_CONCURRENT_REQ"
                || code == "GLOBAL_MAX_CONCURRENT_REQ") = true
            · simp only [frWorkerStep, hpick, hcache, hgate, hcall, hret, hcong]
              simp
            · simp only [frWorkerStep, hpick, hcache, hgate, hcall, hret, hcong]
              simp [hgate, hcong]
          · simp [frWorkerStep, hpick, hcache, hgate, hcall, hret]

/-- Every dispatch the drain loop issues happens no earlier than the cool-down
deadline in force when the loop started. -/
lemma frRun_dispatch_ge_pause :
    ∀ (fuel : Nat) (st : FrWorkerState) (inps : List FrStepInput) (t : Nat),
      t ∈ (frRun fuel st inps).2 → st.pauseUntil ≤ t := by
  intro fuel
  induction fuel with
  | zero =>
    intro st inps t ht
    simp [frRun] at ht
  | succ fuel ih =>
    intro st inps t ht
    simp only [frRun] at ht
    by_cases hl : (frWorkerStep st (inps.headD defaultFrStepInput)).looped = true
    · rw [if_pos hl] at ht
      rcases List.mem_append.mp ht with h1 | h2
      · cases hd : (frWorkerStep st (inps.headD defaultFrStepInput)).dispatchedAt with
        | none =>
          rw [hd] at h1
          simp at h1
        | some d =>
          rw [hd] at h1
          simp at h1
          rw [h1]
          exact frWorkerStep_dispatch_ge_pause st _ d hd
      · exact le_trans (frWorkerStep_pause_mono st _)
          (ih (frWorkerStep st (inps.headD defaultFrStepInput)).st inps.tail t h2)
    · rw [if_neg hl] at ht
      cases hd : (frWorkerStep st (inps.headD defaultFrStepInput)).dispatchedAt with
      | none =>
        rw [hd] at ht
        simp at ht
      | some d =>
        rw [hd] at ht
        simp at ht
        rw [ht]
        exact frWorkerStep_dispatch_ge_pause st _ d hd

/-- A congestion-class failure that was actually dispatched raises the global
cool-down deadline to `dispatch time + FR_GLOBAL_MS_MAX_COOLDOWN_MS` (at
least). -/
lemma frWorkerStep_congestion_pause (st : FrWorkerState) (inp : FrStepInput)
    (code : String) (hs : Nat) (msg : String)
    (hres : inp.callResult = ViesResult.err code hs msg)
    (hcode : code = "MS_MAX_CONCURRENT_REQ" ∨ code = "GLOBAL_MAX_CONCURRENT_REQ") :
    (frWorkerStep st inp).dispatchedAt = none ∨
      ((frWorkerStep st inp).dispatchedAt
          = some (max st.nextCallAt (max st.clock st.pauseUntil))
        ∧ (frWorkerStep st inp).st.pauseUntil
            = max st.pauseUntil
                (max st.nextCallAt (max st.clock st.pauseUntil)
                  + FR_GLOBAL_MS_MAX_COOLDOWN_MS)) := by
  have hretry : isRetryable code hs = true := by
    rcases hcode with rfl | rfl <;> rfl
  have hcong : (code == "MS_MAX_CONCURRENT_REQ"
      || code == "GLOBAL_MAX_CONCURRENT_REQ") = true := by
    rcases hcode with rfl | rfl <;> rfl
  cases hpick : frPickNextDueItem st.store (max st.clock st.pauseUntil) with
  | none =>
    left
    simp [frWorkerStep, hpick]
  | some item =>
    cases hcache : getCached st.cache item.vat_key (max st.clock st.pauseUntil) with
    | some data =>
      left
      simp [frWorkerStep, hpick, hcache]
    | none =>
      by_cases hgate : frGateBlocks inp.status = true
      · left
        simp [frWorkerStep, hpick, hcache, hgate]
      · right
        simp [frWorkerStep, hpick, hcache, hgate, hres, hretry, hcong]

/-- C6: whenever a slow-lane upstream call fails with a congestion-class code
(MS_MAX_CONCURRENT_REQ or GLOBAL_MAX_CONCURRENT_REQ), the worker raises the
lane-wide cool-down deadline to at least the failure time plus the configured
cool-down window, and no later dispatch of the drain loop — for any item —
happens before that deadline. -/
theorem frWorker_congestion_cooldown (st : FrWorkerState) (inp : FrStepInput)
    (code : String) (hs : Nat) (msg : String) (t : Nat)
    (hres : inp.callResult = ViesResult.err code hs msg)
    (hcode : code = "MS_MAX_CONCURRENT_REQ" ∨ code = "GLOBAL_MAX_CONCURRENT_REQ")
    (hdisp : (frWorkerStep st inp).dispatchedAt = some t) :
    t + FR_GLOBAL_MS_MAX_COOLDOWN_MS ≤ (frWorkerStep st inp).st.pauseUntil
      ∧ ∀ (fuel : Nat) (inps : List FrStepInput) (u : Nat),
          u ∈ (frRun fuel (frWorkerStep st inp).st inps).2 →
            t + FR_GLOBAL_MS_MAX_COOLDOWN_MS ≤ u := by
  obtain hnone | ⟨hd, hp⟩ := frWorkerStep_congestion_pause st inp code hs msg hres hcode
  · rw [hnone] at hdisp
    cases hdisp
  · rw [hd] at hdisp
    have ht := Option.some.inj hdisp
    have h1 : t + FR_GLOBAL_MS_MAX_COOLDOWN_MS ≤ (frWorkerStep st inp).st.pauseUntil := by
      rw [hp, ← ht]
      exact Nat.le_max_right _ _
    refine ⟨h1, ?_⟩
    intro fuel inps u hu
    have h2 := frRun_dispatch_ge_pause fuel (frWorkerStep st inp).st inps u hu
    omega

theorem frWorker_congestion_cooldown_witness :
    0 + FR_GLOBAL_MS_MAX_COOLDOWN_MS ≤ (frWorkerStep exSt6 exInp6).st.pauseUntil :=
  (frWorker_congestion_cooldown exSt6 exInp6 "MS_MAX_CONCURRENT_REQ" 200 "busy" 0
    rfl (Or.inl rfl) (by decide)).1

/-- C3: with the retry budget exhausted (attempts = 50) and a retryable
congestion failure, the durable slow-lane worker still transitions the item to
`retry` with attempts = 51 and a new deadline — there is no retry-budget check
and no terminal exhaustion error in this code path. -/
theorem frWorker_no_retry_budget :
    ((frWorkerStep exSt3 exInp3).st.store.items.map
        (fun it => (it.state, it.attempts, it.next_retry_at)))
      = [("retry", 51, some 300000)] := by
  decide

/-- C4: a store whose only item was left `processing` by a crash counts as
open work for `resumeFrWorkerIfNeeded`, yet `frPickNextDueItem` never selects
it (at any time), and the resumed drain loop leaves it `processing`
untouched for any fuel and any oracle — it is never driven to a terminal
state. -/
theorem frResume_processing_stuck :
    0 < resumeOpenCount exStore4
      ∧ (∀ now : Nat, frPickNextDueItem exStore4 now = none)
      ∧ (∀ (fuel : Nat) (inps : List FrStepInput),
          ((frRun fuel exSt4 inps).1).store.items.map (fun it => it.state)
            = ["processing"]) := by
  refine ⟨by decide, fun now => rfl, ?_⟩
  intro fuel inps
  cases fuel with
  | zero => rfl
  | succ n => rfl

end ViesVatTool
